import Mathlib

/-!
Verification of the mpd_rofi music selection tool (src/main.rs).

The development shallowly embeds the pure logic of the program:
network and process I/O are replaced by explicit parameters (the list of
response lines a command produced, the exit code and stdout of the picker
process, the titles reported by the playback queue, a stream of random
draws), and every function below is a direct transcription of the
corresponding Rust function's control flow on those inputs.

String primitives are modelled on `List Char` so that all definitions
reduce in the kernel: `trimStr` models Rust `str::trim` (both ends,
whitespace class), `stripPre` models `str::strip_prefix`, and
`startsWithL` models `str::starts_with`.
-/

/-- Model of Rust `str::trim`: drop whitespace from both ends.
(Lean's `Char.isWhitespace` covers space, tab, CR, LF; Rust's
`char::is_whitespace` is the Unicode class — they agree on all inputs
appearing in this development.) -/
def trimStr (s : String) : String :=
  String.mk (((s.toList.dropWhile Char.isWhitespace).reverse.dropWhile Char.isWhitespace).reverse)

/-- Model of Rust `str::strip_prefix`: `some` of the remainder when `p`
is a prefix of `s`, otherwise `none`. -/
def stripPre (p s : String) : Option String :=
  if s.toList.take p.toList.length = p.toList then
    some (String.mk (s.toList.drop p.toList.length))
  else none

/-- Model of Rust `str::starts_with`. -/
def startsWithL (p s : String) : Bool :=
  s.toList.take p.toList.length == p.toList

/-! ## MpdClient::send_command (src/main.rs lines 76–99)

The Rust loop reads one line at a time; we model the stream of lines the
server sends as a `List String`.  The result is `none` when the stream is
exhausted before a terminator is seen (in the real program the loop would
keep blocking on the socket), `some (.ok body)` on an `OK` line and
`some (.error msg)` on an `ACK`-prefixed line. -/

def sendCommandAux (acc : List String) : List String → Option (Except String (List String))
  | [] => none
  | l :: ls =>
    let t := trimStr l
    if t == "OK" then some (Except.ok acc)
    else if startsWithL "ACK" t then some (Except.error ("MPD error: " ++ t))
    else sendCommandAux (acc ++ [t]) ls

def sendCommand (ls : List String) : Option (Except String (List String)) :=
  sendCommandAux [] ls

/-! ## MpdClient::list_albums (src/main.rs lines 101–130)

State of the scan: the two accumulator fields and the set of albums
collected so far.  Rust uses a `HashSet`; since its iteration order is
unspecified we model it as a duplicate-free list in first-insertion
order (`insertAlbum` inserts only when absent, like `HashSet::insert`). -/

structure AlbumScan where
  curArtist : String
  curAlbum : String
  albums : List (String × String)
deriving DecidableEq, Repr

def insertAlbum (p : String × String) (l : List (String × String)) : List (String × String) :=
  if p ∈ l then l else l ++ [p]

def albumStep (st : AlbumScan) (line : String) : AlbumScan :=
  match stripPre "AlbumArtist: " line with
  | some v => { st with curArtist := v }
  | none =>
    match stripPre "Album: " line with
    | some v => { st with curAlbum := v }
    | none =>
      if startsWithL "file: " line && !(st.curArtist == "") && !(st.curAlbum == "") then
        { st with albums := insertAlbum (st.curArtist, st.curAlbum) st.albums }
      else st

def listAlbumsScan (lines : List String) : AlbumScan :=
  lines.foldl albumStep ⟨"", "", []⟩

def listAlbums (lines : List String) : List (String × String) :=
  (listAlbumsScan lines).albums

/-- Modelled from the spec (claim wording, §4.2): the same scan but
resetting the accumulator to empty after every emission, for comparison
with `listAlbums` which the source implements without a reset. -/
def albumStepReset (st : AlbumScan) (line : String) : AlbumScan :=
  match stripPre "AlbumArtist: " line with
  | some v => { st with curArtist := v }
  | none =>
    match stripPre "Album: " line with
    | some v => { st with curAlbum := v }
    | none =>
      if startsWithL "file: " line && !(st.curArtist == "") && !(st.curAlbum == "") then
        { curArtist := "", curAlbum := "",
          albums := insertAlbum (st.curArtist, st.curAlbum) st.albums }
      else st

def listAlbumsResetting (lines : List String) : List (String × String) :=
  (lines.foldl albumStepReset ⟨"", "", []⟩).albums

/-! ## MpdClient::list_artists (src/main.rs lines 132–145) -/

def listArtists : List String → List String
  | [] => []
  | line :: ls =>
    match stripPre "AlbumArtist: " line with
    | some artist =>
      if !(trimStr artist == "") then artist :: listArtists ls else listArtists ls
    | none => listArtists ls

/-! ## MpdClient::list_songs (src/main.rs lines 147–186)

Scan state: `(current_title, current_artist)`.  The two `Option`
parameters are the `artist`/`album` arguments of the Rust function;
they decide the output format on emission. -/

def songStep (artistO albumO : Option String) (st : String × String) (line : String) :
    (String × String) × Option String :=
  match stripPre "Title: " line with
  | some t => ((t, st.2), none)
  | none =>
    match stripPre "AlbumArtist: " line with
    | some a => ((st.1, a), none)
    | none =>
      if startsWithL "file: " line && !(st.1 == "") then
        if artistO.isNone && albumO.isNone then
          (("", ""), some (st.2 ++ "\t" ++ st.1))
        else
          (("", ""), some st.1)
      else (st, none)

def listSongsAux (artistO albumO : Option String) : (String × String) → List String → List String
  | _, [] => []
  | st, l :: ls =>
    match songStep artistO albumO st l with
    | (st', some s) => s :: listSongsAux artistO albumO st' ls
    | (st', none) => listSongsAux artistO albumO st' ls

def listSongs (artistO albumO : Option String) (lines : List String) : List String :=
  listSongsAux artistO albumO ("", "") lines

/-- Number of record-terminator lines in a response. -/
def countFileLines (lines : List String) : Nat :=
  lines.countP (fun l => startsWithL "file: " l)

/-! ## MpdClient::get_playlist (src/main.rs lines 188–222) -/

structure MpdTrack where
  artist : String
  album : String
  title : String
  track : Option String
  file : String
deriving DecidableEq, Repr

def emptyTrack : MpdTrack := ⟨"", "", "", none, ""⟩

def trackStep (st : MpdTrack) (line : String) : MpdTrack × Option MpdTrack :=
  match stripPre "AlbumArtist: " line with
  | some v => ({ st with artist := v }, none)
  | none =>
    match stripPre "Album: " line with
    | some v => ({ st with album := v }, none)
    | none =>
      match stripPre "Title: " line with
      | some v => ({ st with title := v }, none)
      | none =>
        match stripPre "Track: " line with
        | some v => ({ st with track := some v }, none)
        | none =>
          match stripPre "file: " line with
          | some v => (emptyTrack, some { st with file := v })
          | none => (st, none)

def getPlaylistAux : MpdTrack → List String → List MpdTrack
  | _, [] => []
  | st, l :: ls =>
    match trackStep st l with
    | (st', some t) => t :: getPlaylistAux st' ls
    | (st', none) => getPlaylistAux st' ls

def getPlaylist (lines : List String) : List MpdTrack :=
  getPlaylistAux emptyTrack lines

/-! ## MusicSelector::load_quarantine_albums (src/main.rs lines 466–492)

The file content is modelled as its list of lines.  `parseQLine`
implements the anchored regex `^"([^\x22]*)",\s*"([^\x22]*)"$`
deterministically (the character classes exclude the quote, so the
greedy captures are exactly `takeWhile (not a quote)`). -/

def parseQLine (s : String) : Option (String × String) :=
  match s.toList with
  | '"' :: rest =>
    let a := rest.takeWhile (fun c => !(c == '"'))
    match rest.dropWhile (fun c => !(c == '"')) with
    | '"' :: ',' :: r2 =>
      match r2.dropWhile Char.isWhitespace with
      | '"' :: rest2 =>
        let b := rest2.takeWhile (fun c => !(c == '"'))
        match rest2.dropWhile (fun c => !(c == '"')) with
        | ['"'] => some (String.mk a, String.mk b)
        | _ => none
      | _ => none
    | _ => none
  | _ => none

def loadQuarantine : List String → List (String × String)
  | [] => []
  | l :: ls =>
    let t := trimStr l
    if t == "" then loadQuarantine ls
    else
      match parseQLine t with
      | some p => p :: loadQuarantine ls
      | none => loadQuarantine ls

/-! ## MusicSelector::play_song (src/main.rs lines 367–431)

Each `Command::new("mpc")` invocation is modelled by its argument list,
so the dispatch produces a trace `List (List String)` of playback-service
calls, plus the line printed to the user.  The inputs that the source
obtains from the environment are parameters here: `lookup` is the result
of `find_song_album` (consulted only when no album was supplied) and
`playlistTitles` is the queue content reported by `mpc playlist`
(already split into lines).  On every path the Rust function ends in
`Ok(())`; the only error sources are child-process I/O failures, which
are outside this embedding, so the model is total. -/

def playSong (artist : String) (albumO : Option String) (title : String)
    (queueMode : Bool) (lookup : Option String) (playlistTitles : List String) :
    List (List String) × String :=
  let actualAlbum := match albumO with
    | some a => some a
    | none => lookup
  if !queueMode then
    let args := ["findadd"] ++
      (match actualAlbum with
       | some al => ["album", al]
       | none => []) ++ ["albumartist", artist]
    match playlistTitles.findIdx? (fun s => s == title) with
    | some position =>
      ([["clear"], args, ["playlist", "-f", "%title%"], ["play", toString (position + 1)]],
       "Playing:\n" ++ artist ++ "\n" ++ (actualAlbum.getD "") ++ "\n" ++ title)
    | none =>
      ([["clear"], args, ["playlist", "-f", "%title%"], ["play"]],
       "Could not find song '" ++ title ++ "' in playlist")
  else
    let args := ["findadd", "albumartist", artist] ++
      (match actualAlbum with
       | some al => ["album", al]
       | none => []) ++ ["title", title]
    ([args], "Queued:\n" ++ artist ++ "\n" ++ (actualAlbum.getD "") ++ "\n" ++ title)

/-- The queue-mode album dispatch in `main` (e.g. src/main.rs lines
710–712): a single additive `findadd`, no other command. -/
def mainQueueAlbumDispatch (artist album : String) : List (List String) :=
  [["findadd", "album", album, "albumartist", artist]]

/-! ## MusicSelector::rofi_select (src/main.rs lines 273–346)

The picker child process is replaced by its observable behaviour: the
exit code (`output.status.code().unwrap_or(1)`) and its stdout.  The
column-formatting pre-pass only rewrites the text shown to the picker,
never the `items` the selection is taken from, so it does not appear in
the model. -/

/-- Model of Rust `str::parse::<usize>`: an optional leading `'+'`, then
one or more ASCII digits.  (Rust additionally fails on overflow past
`usize::MAX`; such an index is out of range for every real item list, so
both sides yield "no selection" and the difference is unobservable.) -/
def parseIndex (s : String) : Option Nat :=
  let cs := match s.toList with
    | '+' :: rest => rest
    | cs => cs
  if cs ≠ [] ∧ cs.all Char.isDigit then
    some (cs.foldl (fun n c => n * 10 + (c.toNat - 48)) 0)
  else none

def rofiSelect (items : List String) (exitCode : Nat) (stdout : String) :
    Option String × Bool :=
  if items.isEmpty then (none, false)
  else if exitCode == 1 then (none, false)
  else
    let s := trimStr stdout
    if s == "" then (none, false)
    else
      match parseIndex s with
      | some index =>
        if h : 0 < index ∧ index ≤ items.length then
          (some (items.get ⟨index - 1, by omega⟩), exitCode == 10)
        else (none, false)
      | none => (none, false)

/-! ## Shuffling (rand's `SliceRandom::shuffle`, used at src/main.rs
lines 625, 640, 683)

`shuffle` is the Fisher–Yates loop
`for i in (1..len).rev() { swap(i, gen_range(0..=i)) }`.  The random
generator is modelled as a function `g : Nat → Nat` giving the draw made
at step `i`; `g i % (i + 1)` is the uniform index in `0..=i`. -/

def swapL {α : Type} (l : List α) (i j : Nat) : List α :=
  if h : i < l.length ∧ j < l.length then
    (l.set i (l.get ⟨j, h.2⟩)).set j (l.get ⟨i, h.1⟩)
  else l

def fyAux {α : Type} (g : Nat → Nat) : List α → Nat → List α
  | l, 0 => l
  | l, i + 1 => fyAux g (swapL l (i + 1) (g (i + 1) % (i + 2))) i

def shuffleList {α : Type} (l : List α) (g : Nat → Nat) : List α :=
  fyAux g l (l.length - 1)

/-! The lists each selection scope presents to the picker
(`MusicSelector::select_artist` lines 618–628, `select_album` lines
630–667, `select_song` lines 669–698). -/

def selectArtistItems (artists : List String) (g : Nat → Nat) : List String :=
  shuffleList artists g

def selectAlbumItemsWithArtist (albums : List (String × String)) (g : Nat → Nat) :
    List String :=
  (shuffleList albums g).map (fun p => p.2)

def selectAlbumItemsNoArtist (albums : List (String × String)) (g : Nat → Nat) :
    List String :=
  (shuffleList albums g).map (fun p => p.1 ++ "\t" ++ p.2)

def selectSongItems (artistO albumO : Option String) (songs : List String)
    (g : Nat → Nat) : List String :=
  if artistO.isNone && albumO.isNone then shuffleList songs g else songs

/-! # Helper lemmas -/

lemma startsACK_ne_OK (t : String) (h : startsWithL "ACK" t = true) : (t == "OK") = false := by
  cases h2 : t == "OK"
  · rfl
  · rw [beq_iff_eq] at h2
    subst h2
    exact absurd h (by decide)

lemma sendCommandAux_drain (pre : List String) :
    ∀ (acc rest : List String),
      (∀ l ∈ pre, trimStr l ≠ "OK" ∧ startsWithL "ACK" (trimStr l) = false) →
      sendCommandAux acc (pre ++ rest) = sendCommandAux (acc ++ pre.map trimStr) rest := by
  induction pre with
  | nil => intro acc rest _; simp
  | cons p ps ih =>
    intro acc rest h
    have h1 := h p (by simp)
    simp only [List.cons_append, sendCommandAux]
    rw [if_neg (by simp [h1.1]), if_neg (by simp [h1.2])]
    show sendCommandAux (acc ++ [trimStr p]) (ps ++ rest) = _
    rw [ih (acc ++ [trimStr p]) rest (fun l hl => h l (by simp [hl]))]
    simp

lemma insertAlbum_nodup (p : String × String) (l : List (String × String)) (h : l.Nodup) :
    (insertAlbum p l).Nodup := by
  unfold insertAlbum
  split
  · exact h
  · next hp =>
    refine List.nodup_append.2 ⟨h, List.nodup_singleton p, ?_⟩
    intro a ha hb
    rw [List.mem_singleton] at hb
    subst hb
    exact hp ha

lemma albumStep_albums_cases (st : AlbumScan) (line : String) :
    (albumStep st line).albums = st.albums ∨
    (albumStep st line).albums = insertAlbum (st.curArtist, st.curAlbum) st.albums := by
  unfold albumStep
  split
  · left; rfl
  · split
    · left; rfl
    · split
      · right; rfl
      · left; rfl

lemma listAlbumsScan_nodup (lines : List String) :
    ∀ st : AlbumScan, st.albums.Nodup → (lines.foldl albumStep st).albums.Nodup := by
  induction lines with
  | nil => intro st h; exact h
  | cons l ls ih =>
    intro st h
    simp only [List.foldl_cons]
    apply ih
    cases albumStep_albums_cases st l with
    | inl hc => rw [hc]; exact h
    | inr hc => rw [hc]; exact insertAlbum_nodup _ _ h

/-! # Claims -/

/-- C2: send_command reads lines until one trims to exactly "OK" (then it
returns success with exactly the previously accumulated (trimmed) lines as
the body) or one whose trimmed form begins with the error sentinel "ACK"
(then it returns a typed command error carrying the server message, and no
accumulated lines reach the caller). -/
theorem sendCommand_c2 (pre : List String) (term : String) (post : List String)
    (hpre : ∀ l ∈ pre, trimStr l ≠ "OK" ∧ startsWithL "ACK" (trimStr l) = false) :
    (trimStr term = "OK" →
      sendCommand (pre ++ term :: post) = some (Except.ok (pre.map trimStr))) ∧
    (startsWithL "ACK" (trimStr term) = true →
      sendCommand (pre ++ term :: post) =
        some (Except.error ("MPD error: " ++ trimStr term))) := by
  unfold sendCommand
  rw [sendCommandAux_drain pre [] (term :: post) hpre]
  simp only [List.nil_append, sendCommandAux]
  constructor
  · intro h
    rw [if_pos (by simp [h])]
  · intro h
    rw [if_neg (by simp [startsACK_ne_OK _ h]), if_pos (by simp [h])]

/-- Witness for C2 at a concrete exchange. -/
theorem sendCommand_c2_witness :
    sendCommand ["Artist: A", "OK"] = some (Except.ok (["Artist: A"].map trimStr)) :=
  (sendCommand_c2 ["Artist: A"] "OK" [] (by decide)).1 (by decide)

/-- C3: list_albums never returns a duplicate (artist, album) pair: the
accumulating set collapses repeated album identities, so the returned
collection is duplicate-free for every response line sequence. -/
theorem listAlbums_nodup (lines : List String) : (listAlbums lines).Nodup :=
  listAlbumsScan_nodup lines ⟨"", "", []⟩ List.nodup_nil

/-- C4 counterexample: a line with whitespace between the comma and the
second quoted field matches the implemented grammar (the regex contains
a whitespace-class star after the comma) and yields the entry, contrary
to the claim that it yields no entry. -/
theorem loadQuarantine_ws_cex :
    parseQLine "\"A\", \"B\"" = some ("A", "B") ∧
    loadQuarantine ["\"A\", \"B\""] = [("A", "B")] := by decide

/-- C4 amended: a line "A","B" yields the entry (A, B), and so does a
line with whitespace between the comma and the second quoted field (the
grammar allows optional whitespace there); blank lines and non-matching
lines are skipped without error and only reduce the number of entries
yielded (never more entries than lines). -/
theorem loadQuarantine_amended :
    parseQLine "\"A\",\"B\"" = some ("A", "B") ∧
    parseQLine "\"A\", \"B\"" = some ("A", "B") ∧
    loadQuarantine ["", "   ", "not a pair", "\"A\",\"B\""] = [("A", "B")] ∧
    ∀ lines : List String, (loadQuarantine lines).length ≤ lines.length := by
  refine ⟨by decide, by decide, by decide, ?_⟩
  intro lines
  induction lines with
  | nil => simp [loadQuarantine]
  | cons l ls ih =>
    simp only [loadQuarantine]
    split
    · exact Nat.le_succ_of_le ih
    · split
      · simpa using Nat.succ_le_succ ih
      · exact Nat.le_succ_of_le ih

/-- C8 counterexample: list_artists does not deduplicate; a response in
which the same artist value occurs on two lines yields that name twice,
so the result is not a sequence of distinct names. -/
theorem listArtists_dup_cex :
    listArtists ["AlbumArtist: X", "AlbumArtist: X"] = ["X", "X"] ∧
    ¬ (listArtists ["AlbumArtist: X", "AlbumArtist: X"]).Nodup := by decide

/-- C8 amended: list_artists returns, in server order, exactly those
AlbumArtist values whose text is not whitespace-only (so every returned
name is non-empty after trimming, and the result is an order-preserving
subsequence of the parsed values); distinctness is not enforced by the
client — duplicates sent by the server are returned as-is. -/
theorem listArtists_amended (lines : List String) :
    (∀ a ∈ listArtists lines, ¬ trimStr a = "") ∧
    List.Sublist (listArtists lines) (lines.filterMap (stripPre "AlbumArtist: ")) := by
  induction lines with
  | nil => exact ⟨by simp [listArtists], by simp [listArtists]⟩
  | cons l ls ih =>
    simp only [listArtists, List.filterMap_cons]
    cases h1 : stripPre "AlbumArtist: " l with
    | none => exact ih
    | some artist =>
      dsimp only
      by_cases h2 : trimStr artist = ""
      · rw [if_neg (by simp [h2])]
        exact ⟨ih.1, ih.2.cons artist⟩
      · rw [if_pos (by simp [h2])]
        constructor
        · intro a ha
          rcases List.mem_cons.1 ha with rfl | ha2
          · exact h2
          · exact ih.1 a ha2
        · exact ih.2.cons₂ artist

/-- Witness for C8 amended at a concrete response. -/
theorem listArtists_amended_witness :
    ¬ trimStr "X" = "" :=
  (listArtists_amended ["AlbumArtist: X"]).1 "X" (by decide)

/-- C1 counterexample: in list_albums the accumulator is NOT reset after
an emission.  After scanning AlbumArtist, Album and a terminator line, a
record was emitted yet the accumulator still holds ("A", "B"); on a
longer response this is observable in the output, which differs from
what the uniform reset rule (listAlbumsResetting) would produce. -/
theorem scanRule_reset_cex :
    listAlbums ["AlbumArtist: A", "Album: B", "file: x"] = [("A", "B")] ∧
    (listAlbumsScan ["AlbumArtist: A", "Album: B", "file: x"]).curArtist = "A" ∧
    (listAlbumsScan ["AlbumArtist: A", "Album: B", "file: x"]).curAlbum = "B" ∧
    listAlbums ["AlbumArtist: A", "Album: B", "file: x", "Album: C", "file: y"] =
      [("A", "B"), ("A", "C")] ∧
    listAlbumsResetting ["AlbumArtist: A", "Album: B", "file: x", "Album: C", "file: y"] =
      [("A", "B")] := by decide

/-- C1 amended: the three scans share the field-storing rule and ignore
unrecognized lines, but differ at the terminator: list_songs and
get_playlist reset their accumulator to empty after every emission
(list_songs emitting only when the stored title is non-empty,
get_playlist emitting unconditionally), while list_albums emits into its
set only when both stored fields are non-empty and never resets its
accumulator, which retains its fields across terminator lines. -/
theorem scanRule_amended :
    (∀ (aO bO : Option String) (st : String × String) (line : String)
        (st' : String × String) (r : String),
        songStep aO bO st line = (st', some r) → st' = ("", ""))
  ∧ (∀ (st : MpdTrack) (line : String) (st' : MpdTrack) (t : MpdTrack),
        trackStep st line = (st', some t) → st' = emptyTrack)
  ∧ (∀ (st : AlbumScan) (line : String),
        stripPre "AlbumArtist: " line = none → stripPre "Album: " line = none →
        (albumStep st line).curArtist = st.curArtist ∧
        (albumStep st line).curAlbum = st.curAlbum)
  ∧ (∀ (st : AlbumScan) (line : String),
        stripPre "AlbumArtist: " line = none → stripPre "Album: " line = none →
        startsWithL "file: " line = false → albumStep st line = st)
  ∧ (∀ (aO bO : Option String) (st : String × String) (line : String),
        stripPre "Title: " line = none → stripPre "AlbumArtist: " line = none →
        startsWithL "file: " line = false → songStep aO bO st line = (st, none))
  ∧ (∀ (st : MpdTrack) (line : String),
        stripPre "AlbumArtist: " line = none → stripPre "Album: " line = none →
        stripPre "Title: " line = none → stripPre "Track: " line = none →
        stripPre "file: " line = none → trackStep st line = (st, none)) := by
  refine ⟨?_, ?_, ?_, ?_, ?_, ?_⟩
  · intro aO bO st line st' r h
    unfold songStep at h
    split at h
    · exact absurd (congrArg Prod.snd h) (by simp)
    · split at h
      · exact absurd (congrArg Prod.snd h) (by simp)
      · split at h
        · split at h
          · exact (congrArg Prod.fst h).symm
          · exact (congrArg Prod.fst h).symm
        · exact absurd (congrArg Prod.snd h) (by simp)
  · intro st line st' t h
    unfold trackStep at h
    split at h
    · exact absurd (congrArg Prod.snd h) (by simp)
    · split at h
      · exact absurd (congrArg Prod.snd h) (by simp)
      · split at h
        · exact absurd (congrArg Prod.snd h) (by simp)
        · split at h
          · exact absurd (congrArg Prod.snd h) (by simp)
          · split at h
            · exact (congrArg Prod.fst h).symm
            · exact absurd (congrArg Prod.snd h) (by simp)
  · intro st line h1 h2
    unfold albumStep
    rw [h1, h2]
    dsimp only
    split
    · exact ⟨rfl, rfl⟩
    · exact ⟨rfl, rfl⟩
  · intro st line h1 h2 h3
    unfold albumStep
    rw [h1, h2]
    dsimp only
    simp [h3]
  · intro aO bO st line h1 h2 h3
    unfold songStep
    rw [h1, h2]
    dsimp only
    simp [h3]
  · intro st line h1 h2 h3 h4 h5
    unfold trackStep
    rw [h1, h2, h3, h4, h5]

/-- Witness for C1 amended: an unrecognized line leaves the list_albums
accumulator unchanged, at a concrete state and line. -/
theorem scanRule_amended_witness :
    albumStep ⟨"a", "b", []⟩ "junk" = ⟨"a", "b", []⟩ :=
  scanRule_amended.2.2.2.1 ⟨"a", "b", []⟩ "junk" (by decide) (by decide) (by decide)

lemma songStep_emit (aO bO : Option String) (st : String × String) (line : String)
    (st' : String × String) (r : String) (h : songStep aO bO st line = (st', some r)) :
    ¬ st.1 = "" ∧ startsWithL "file: " line = true ∧ st' = ("", "") := by
  unfold songStep at h
  split at h
  · exact absurd (congrArg Prod.snd h) (by simp)
  · split at h
    · exact absurd (congrArg Prod.snd h) (by simp)
    · split at h
      · next hc =>
        rw [Bool.and_eq_true, Bool.not_eq_eq_eq_not, Bool.not_true, beq_eq_false_iff_ne] at hc
        split at h
        · exact ⟨hc.2, hc.1, (congrArg Prod.fst h).symm⟩
        · exact ⟨hc.2, hc.1, (congrArg Prod.fst h).symm⟩
      · exact absurd (congrArg Prod.snd h) (by simp)

lemma listSongsAux_le (aO bO : Option String) (lines : List String) :
    ∀ st : String × String,
      (listSongsAux aO bO st lines).length ≤ countFileLines lines := by
  induction lines with
  | nil => intro st; simp [listSongsAux, countFileLines]
  | cons l ls ih =>
    intro st
    simp only [listSongsAux, countFileLines, List.countP_cons]
    cases hstep : songStep aO bO st l with
    | mk st' out =>
      cases out with
      | some s =>
        have hfile := (songStep_emit aO bO st l st' s hstep).2.1
        simp only [hfile, if_pos rfl]
        have := ih st'
        simp only [countFileLines] at this
        simpa using Nat.succ_le_succ this
      | none =>
        have := ih st'
        simp only [countFileLines] at this
        exact le_trans this (Nat.le_add_right _ _)

/-- C10: list_songs emits an entry only at a terminator (file) line whose
accumulated title is non-empty — so a record with an absent or empty
Title yields no entry and the number of songs can be strictly below the
number of terminator lines (witnessed concretely) — and after each
emission the title and artist accumulators are both cleared. -/
theorem listSongs_c10 :
    (∀ (aO bO : Option String) (st : String × String) (line : String)
        (st' : String × String) (r : String),
        songStep aO bO st line = (st', some r) →
          ¬ st.1 = "" ∧ startsWithL "file: " line = true ∧ st' = ("", ""))
  ∧ (∀ (aO bO : Option String) (lines : List String),
        (listSongs aO bO lines).length ≤ countFileLines lines)
  ∧ listSongs (some "a") (some "b") ["file: x"] = []
  ∧ countFileLines ["file: x"] = 1 := by
  refine ⟨songStep_emit, ?_, by decide, by decide⟩
  intro aO bO lines
  exact listSongsAux_le aO bO lines ("", "")

/-- Witness for C10 at a concrete emission step. -/
theorem listSongs_c10_witness :
    ¬ ("T" : String) = "" ∧ startsWithL "file: " "file: x" = true ∧
      (("", "") : String × String) = ("", "") :=
  listSongs_c10.1 none none ("T", "A") "file: x" ("", "") "A\tT" (by decide)

/-- C6: a dispatch in queue mode never issues the clear-queue command
(neither play_song in queue mode nor the queue-album dispatch in main),
and a dispatch in play mode issues the clear-queue command first, before
any other playback-service command. -/
theorem playSong_c6 (artist : String) (albumO : Option String) (title : String)
    (queueMode : Bool) (lookup : Option String) (titles : List String) :
    (queueMode = true →
      ["clear"] ∉ (playSong artist albumO title queueMode lookup titles).1)
  ∧ (queueMode = false →
      (playSong artist albumO title queueMode lookup titles).1.head? = some ["clear"])
  ∧ (∀ a2 al2 : String, ["clear"] ∉ mainQueueAlbumDispatch a2 al2) := by
  refine ⟨?_, ?_, ?_⟩
  · intro hq
    subst hq
    unfold playSong
    rw [if_neg (by decide)]
    intro hmem
    rw [List.mem_singleton] at hmem
    have hmem2 : ["clear"] = "findadd" :: ("albumartist" :: artist ::
        ((match (match albumO with | some a => some a | none => lookup) with
          | some al => ["album", al]
          | none => []) ++ ["title", title])) := hmem
    injection hmem2 with h1 _
    exact absurd h1 (by decide)
  · intro hq
    subst hq
    unfold playSong
    rw [if_pos (by decide)]
    cases titles.findIdx? (fun s => s == title) <;> rfl
  · intro a2 al2 hmem
    rw [mainQueueAlbumDispatch, List.mem_singleton] at hmem
    injection hmem with h1 _
    exact absurd h1 (by decide)

/-- Witness for C6 at concrete inputs: queue mode issues no clear. -/
theorem playSong_c6_witness :
    ["clear"] ∉ (playSong "a" none "t" true none []).1 :=
  (playSong_c6 "a" none "t" true none []).1 rfl

lemma findIdx?_beq_none (title : String) (l : List String) (h : title ∉ l) :
    l.findIdx? (fun s => s == title) = none := by
  rw [List.findIdx?_eq_none_iff]
  intro x hx
  simp only [beq_eq_false_iff_ne, ne_eq]
  intro he
  exact h (he ▸ hx)

/-- C7: in play mode with a known title, when the requested title is not
present in the queue reported after clearing and adding the album, the
dispatcher issues a position-less play command (start from the top) and
reports that the song could not be found; the function completes
normally on this path (in the source it ends in Ok(()) — the degradation
is not an error). -/
theorem playSong_c7 (artist title : String) (lookup : Option String) (album : String)
    (titles : List String) (h : title ∉ titles) :
    playSong artist (some album) title false lookup titles =
      ([["clear"], ["findadd", "album", album, "albumartist", artist],
        ["playlist", "-f", "%title%"], ["play"]],
       "Could not find song '" ++ title ++ "' in playlist") := by
  unfold playSong
  rw [if_pos (by decide)]
  dsimp only
  rw [findIdx?_beq_none title titles h]
  rfl

/-- Witness for C7 at a concrete queue state. -/
theorem playSong_c7_witness :
    playSong "a" (some "al") "t" false none ["x"] =
      ([["clear"], ["findadd", "album", "al", "albumartist", "a"],
        ["playlist", "-f", "%title%"], ["play"]],
       "Could not find song '" ++ "t" ++ "' in playlist") :=
  playSong_c7 "a" "t" none "al" ["x"] (by decide)

lemma count_set_add {α : Type} [DecidableEq α] (a b : α) :
    ∀ (l : List α) (i : Nat) (h : i < l.length),
      (l.set i b).count a + (if l.get ⟨i, h⟩ = a then 1 else 0) =
        l.count a + (if b = a then 1 else 0) := by
  intro l
  induction l with
  | nil => intro i h; simp at h
  | cons x xs ih =>
    intro i h
    cases i with
    | zero =>
      simp only [List.set, List.get, List.count_cons, beq_iff_eq]
      split_ifs <;> omega
    | succ n =>
      simp only [List.length_cons] at h
      have hn := ih n (Nat.lt_of_succ_lt_succ h)
      simp only [List.set, List.get, List.count_cons, beq_iff_eq]
      split_ifs at hn ⊢ <;> omega

lemma swapL_perm {α : Type} [DecidableEq α] (l : List α) (i j : Nat) :
    List.Perm (swapL l i j) l := by
  unfold swapL
  split
  · next hb =>
    rw [List.perm_iff_count]
    intro a
    have h1 : j < (l.set i (l.get ⟨j, hb.2⟩)).length := by
      rw [List.length_set]; exact hb.2
    have e1 := count_set_add a (l.get ⟨i, hb.1⟩) (l.set i (l.get ⟨j, hb.2⟩)) j h1
    have e2 := count_set_add a (l.get ⟨j, hb.2⟩) l i hb.1
    have hget : (l.set i (l.get ⟨j, hb.2⟩)).get ⟨j, h1⟩ = l.get ⟨j, hb.2⟩ := by
      rcases eq_or_ne i j with rfl | hne
      · simp [List.get_eq_getElem, List.getElem_set]
      · simp [List.get_eq_getElem, List.getElem_set, hne]
    rw [hget] at e1
    split_ifs at e1 e2 <;> omega
  · exact List.Perm.refl l

lemma fyAux_perm {α : Type} [DecidableEq α] (g : Nat → Nat) :
    ∀ (n : Nat) (l : List α), List.Perm (fyAux g l n) l := by
  intro n
  induction n with
  | zero => intro l; exact List.Perm.refl l
  | succ m ih =>
    intro l
    exact List.Perm.trans (ih (swapL l (m + 1) (g (m + 1) % (m + 2)))) (swapL_perm l _ _)

lemma shuffleList_perm {α : Type} [DecidableEq α] (l : List α) (g : Nat → Nat) :
    List.Perm (shuffleList l g) l :=
  fyAux_perm g (l.length - 1) l

/-- C5: at every selection scope that shuffles (artist selection, album
selection in both scopes, all-songs selection), the list handed to the
picker is a permutation of the corresponding candidate list — the
multiset of displayed items equals the multiset of candidates — for
every state of the random generator (modelled as the stream of draws
consumed by the Fisher–Yates loop). -/
theorem shuffledViews_perm (g : Nat → Nat) (artists songs : List String)
    (albums : List (String × String)) :
    List.Perm (selectArtistItems artists g) artists
  ∧ List.Perm (selectAlbumItemsWithArtist albums g) (albums.map (fun p => p.2))
  ∧ List.Perm (selectAlbumItemsNoArtist albums g)
      (albums.map (fun p => p.1 ++ "\t" ++ p.2))
  ∧ List.Perm (selectSongItems none none songs g) songs := by
  refine ⟨?_, ?_, ?_, ?_⟩
  · exact shuffleList_perm artists g
  · exact List.Perm.map _ (shuffleList_perm albums g)
  · exact List.Perm.map _ (shuffleList_perm albums g)
  · exact shuffleList_perm songs g

/-- C9: rofi_select returns a selection only when the parsed picker index
i satisfies 1 ≤ i ≤ items.length, in which case the selection is the
item at 1-based position i (accessed with an in-bounds proof, so no
out-of-bounds access can occur) and the queue flag is exit-code = 10;
an empty item list, the cancel exit status 1, an unparsable index, and
an out-of-range index all yield (none, false). -/
theorem rofiSelect_c9 (items : List String) (ec : Nat) (out : String) :
    (∀ (sel : String) (b : Bool), rofiSelect items ec out = (some sel, b) →
      ∃ i, parseIndex (trimStr out) = some i ∧ 1 ≤ i ∧ i ≤ items.length ∧
        items.get? (i - 1) = some sel ∧ b = (ec == 10))
  ∧ (items = [] → rofiSelect items ec out = (none, false))
  ∧ (ec = 1 → rofiSelect items ec out = (none, false))
  ∧ (parseIndex (trimStr out) = none → rofiSelect items ec out = (none, false))
  ∧ (∀ i, parseIndex (trimStr out) = some i → (i = 0 ∨ items.length < i) →
      rofiSelect items ec out = (none, false)) := by
  refine ⟨?_, ?_, ?_, ?_, ?_⟩
  · intro sel b h
    unfold rofiSelect at h
    split at h
    · exact absurd (congrArg Prod.fst h) (by simp)
    · split at h
      · exact absurd (congrArg Prod.fst h) (by simp)
      · dsimp only at h
        split at h
        · exact absurd (congrArg Prod.fst h) (by simp)
        · split at h
          · next index heq =>
            split at h
            · next hrange =>
              refine ⟨index, heq, hrange.1, hrange.2, ?_, (congrArg Prod.snd h).symm⟩
              have hsel := congrArg Prod.fst h
              simp only at hsel
              rw [← Option.some.injEq] at hsel ⊢
              rw [← hsel, List.get?_eq_get]
            · exact absurd (congrArg Prod.fst h) (by simp)
          · exact absurd (congrArg Prod.fst h) (by simp)
  · intro he
    subst he
    rfl
  · intro he
    subst he
    unfold rofiSelect
    split
    · rfl
    · split
      · rfl
      · next hne => exact absurd rfl hne
  · intro hp
    unfold rofiSelect
    split
    · rfl
    · split
      · rfl
      · dsimp only
        split
        · rfl
        · split
          · next index heq => exact absurd (hp ▸ heq) (by simp)
          · rfl
  · intro i hp hbad
    unfold rofiSelect
    split
    · rfl
    · split
      · rfl
      · dsimp only
        split
        · rfl
        · split
          · next index heq =>
            rw [hp] at heq
            injection heq with heq2
            subst heq2
            rw [dif_neg (by omega)]
          · rfl

/-- Witness for C9 at a concrete picker interaction (cancel exit). -/
theorem rofiSelect_c9_witness :
    rofiSelect ["a", "b"] 1 "2" = (none, false) :=
  (rofiSelect_c9 ["a", "b"] 1 "2").2.2.1 rfl
